import Mathlib

/-!
# kamerafyr-server: the `POST /licenseplate` decision logic

A shallow embedding of `src/main.go` and `src/db.go`.

* The database is the list of live rows of the `license_plate_requests` table in
  primary-key order, together with the next auto-increment key.  `gorm.Model` gives the
  table a `DeletedAt` column, so `Database.Delete` is a soft delete; every query of the
  program goes through gorm's default scope, which hides soft-deleted rows for good, so a
  delete is modelled as the removal of the row from the live rows.
* `time.Parse` is a library function; the handler is parameterised by it.
  `parseTimestamp` is a concrete instance for the layout the program uses.
* `float64` values are rationals and every arithmetic operation rounds its exact result
  to the nearest binary64 value, ties to even (`round64`).
* A nil-pointer dereference is a `Flow.panics`; `net/http` recovers a panicking handler
  and closes the connection without a response (`Response.aborted`).
-/

namespace Kamerafyr

/-! ## float64 arithmetic -/

/-- A `float64` value, as the rational it denotes. -/
abbrev F64 := ℚ

/-- Nearest integer to a rational, ties going to the even neighbour. -/
def roundHalfEven (q : ℚ) : ℤ :=
  let f : ℤ := ⌊q⌋
  let r : ℚ := q - f
  if r < 1 / 2 then f
  else if 1 / 2 < r then f + 1
  else if f % 2 = 0 then f else f + 1

/-- Floor of the binary logarithm of `n`, by at most `fuel` halvings. -/
def log2Fuel : ℕ → ℕ → ℕ
  | 0, _ => 0
  | fuel + 1, n => if n < 2 then 0 else log2Fuel fuel (n / 2) + 1

/-- Floor of the binary logarithm of a natural number (0 at 0). -/
def log2 (n : ℕ) : ℕ := log2Fuel n n

/-- The binary exponent of a positive rational: the `e` with `2 ^ e ≤ q < 2 ^ (e + 1)`. -/
def ilog2 (q : ℚ) : ℤ :=
  let e0 : ℤ := (log2 q.num.natAbs : ℤ) - (log2 q.den : ℤ)
  if (2 : ℚ) ^ e0 ≤ q then e0 else e0 - 1

/-- Rounding of a positive rational to 53 significant bits. -/
def round64Pos (q : ℚ) : ℚ :=
  let e := ilog2 q
  (roundHalfEven (q * (2 : ℚ) ^ (52 - e)) : ℚ) * (2 : ℚ) ^ (e - 52)

/-- IEEE 754 binary64 rounding (round to nearest, ties to even) of an exact result whose
magnitude is zero or in the normal range; every value the handler computes is. -/
def round64 (q : ℚ) : F64 :=
  if q = 0 then 0
  else if 0 < q then round64Pos q
  else -round64Pos (-q)

/-- Go `float64(n)` for an integer `n`. -/
def F64.ofInt (n : ℤ) : F64 := round64 n

/-- Go `a + b` on `float64`. -/
def F64.add (a b : F64) : F64 := round64 (a + b)

/-- Go `a * b` on `float64`. -/
def F64.mul (a b : F64) : F64 := round64 (a * b)

/-- Go `a / b` on `float64`, for `b ≠ 0`. -/
def F64.div (a b : F64) : F64 := round64 (a / b)

/-! ## package `time` -/

/-- A `time.Time` instant: nanoseconds since the Unix epoch. -/
abbrev Time := ℤ

/-- A `time.Duration`: an `int64` count of nanoseconds. -/
abbrev Duration := ℤ

/-- Go `time.Second`. -/
def Second : Duration := 1000000000

/-- Go `minDuration`. -/
def minDuration : Duration := -(2 : ℤ) ^ 63

/-- Go `maxDuration`. -/
def maxDuration : Duration := (2 : ℤ) ^ 63 - 1

/-- Go `t.Sub(u)`: the difference `t - u`, saturated to the `int64` range. -/
def Time.Sub (t u : Time) : Duration :=
  if t - u < minDuration then minDuration
  else if maxDuration < t - u then maxDuration
  else t - u

/-- Go `d.Seconds()`:
`sec := d / Second; nsec := d % Second; return float64(sec) + float64(nsec)/1e9`,
with Go's truncating integer division. -/
def Duration.Seconds (d : Duration) : F64 :=
  let sec := Int.tdiv d Second
  let nsec := Int.tmod d Second
  F64.add (F64.ofInt sec) (F64.div (F64.ofInt nsec) 1000000000)

/-- The float expression of `Duration.Seconds` on given integer parts. -/
def secondsOfParts (sec nsec : ℤ) : F64 :=
  F64.add (F64.ofInt sec) (F64.div (F64.ofInt nsec) 1000000000)

/-- Go `kmh := (diff / 25) * 3600` (`src/main.go`, line 113). -/
def kmh (diff : F64) : F64 := F64.mul (F64.div diff 25) 3600

/-! ## `time.Parse` with the layout `2006-01-02T15:04:05.000-07:00` -/

/-- Value of a decimal digit. -/
def digit? (c : Char) : Option ℕ :=
  if c.isDigit then some (c.toNat - 48) else none

/-- Two decimal digits read as a number. -/
def num2 (a b : Char) : Option ℕ :=
  match digit? a, digit? b with
  | some x, some y => some (10 * x + y)
  | _, _ => none

/-- Go `isLeap`. -/
def isLeap (year : ℕ) : Bool :=
  year % 4 == 0 && (year % 100 != 0 || year % 400 == 0)

/-- Go `daysIn`: the number of days of a month. -/
def daysIn (month year : ℕ) : ℕ :=
  if month = 2 then (if isLeap year then 29 else 28)
  else if month = 4 ∨ month = 6 ∨ month = 9 ∨ month = 11 then 30
  else 31

/-- Days from 1970-01-01 to a date of the proleptic Gregorian calendar. -/
def daysFromCivil (year month day : ℤ) : ℤ :=
  let y := if month ≤ 2 then year - 1 else year
  let era := y / 400
  let yoe := y - era * 400
  let mp := if month ≤ 2 then month + 9 else month - 3
  let doy := (153 * mp + 2) / 5 + day - 1
  let doe := yoe * 365 + yoe / 4 - yoe / 100 + doy
  era * 146097 + doe - 719468

/-- The instant of a civil date and time with a zone offset in seconds and a
millisecond fraction, when every field is in the range `time.Parse` accepts. -/
def instant? (year month day hour min sec ms zh zm : ℕ) (neg : Bool) : Option Time :=
  if month < 1 ∨ 12 < month then none
  else if hour ≥ 24 ∨ min ≥ 60 ∨ sec ≥ 60 then none
  else if zh > 24 ∨ zm > 60 then none
  else if day < 1 ∨ daysIn month year < day then none
  else
    let off : ℤ := ((zh : ℤ) * 60 + zm) * 60
    let zoneOffset : ℤ := if neg then -off else off
    let secs : ℤ := daysFromCivil year month day * 86400 + hour * 3600 + min * 60 + sec - zoneOffset
    some (secs * 1000000000 + (ms : ℤ) * 1000000)

/-- An instance of `time.Parse("2006-01-02T15:04:05.000-07:00", s)` on the strings of the
exact fixed-width form `YYYY-MM-DDTHH:MM:SS.sss±HH:MM`, with the range checks of
`time.Parse`: `none` is a parse error.  It also answers `none` on the few strings outside
that form which `time.Parse` tolerates (a one-digit hour, a comma before the
milliseconds, a signed millisecond field).  The handler is parameterised by the parser;
this instance serves the concrete evaluations, at strings on which the two agree. -/
def parseTimestamp (s : String) : Option Time :=
  match s.toList with
  | [y1, y2, y3, y4, c1, m1, m2, c2, d1, d2, c3, h1, h2, c4, n1, n2, c5, s1, s2, c6,
      f1, f2, f3, sg, z1, z2, c7, z3, z4] =>
    if c1 = '-' ∧ c2 = '-' ∧ c3 = 'T' ∧ c4 = ':' ∧ c5 = ':' ∧ c6 = '.' ∧ c7 = ':'
        ∧ (sg = '+' ∨ sg = '-') then
      match num2 y1 y2, num2 y3 y4, num2 m1 m2, num2 d1 d2, num2 h1 h2, num2 n1 n2,
          num2 s1 s2, digit? f1, num2 f2 f3, num2 z1 z2, num2 z3 z4 with
      | some ya, some yb, some mo, some dd, some hh, some mi, some ss, some fa, some fb,
          some zh, some zm =>
        instant? (100 * ya + yb) mo dd hh mi ss (100 * fa + fb) zh zm (sg == '-')
      | _, _, _, _, _, _, _, _, _, _, _ => none
    else none
  | _ => none

/-! ## The data model and the database (`src/db.go`, gorm) -/

/-- Go `LicensePlateRequest`: the primary key of the embedded `gorm.Model` and the three
submitted fields.  `ID = 0` is the zero value of a record not yet created. -/
structure LicensePlateRequest where
  ID : ℕ
  Plate : String
  Timestamp : String
  Hostname : String
  deriving DecidableEq, Repr

/-- The `license_plate_requests` table: its live rows in primary-key order and the key the
next `Create` assigns. -/
structure DB where
  rows : List LicensePlateRequest
  nextID : ℕ
  deriving DecidableEq, Repr

/-- The database right after `InitializeDb` on a fresh file: no row, first key 1. -/
def DB.empty : DB := ⟨[], 1⟩

/-- Go `Database.Where("plate = ? AND timestamp = ?", plate, ts).First(&r)`:
the first live row with that plate and that timestamp string; `none` is
`gorm.ErrRecordNotFound`. -/
def DB.firstByPlateAndTimestamp (db : DB) (plate ts : String) : Option LicensePlateRequest :=
  db.rows.find? (fun r => r.Plate == plate && r.Timestamp == ts)

/-- Go `Database.Where("plate = ?", plate).First(&r)`: the first live row with that plate. -/
def DB.firstByPlate (db : DB) (plate : String) : Option LicensePlateRequest :=
  db.rows.find? (fun r => r.Plate == plate)

/-- Go `Database.Delete(&r)` for a record `r` read from the table: the rows with the
primary key of `r` stop being live. -/
def DB.Delete (db : DB) (r : LicensePlateRequest) : DB :=
  { db with rows := db.rows.filter (fun x => x.ID != r.ID) }

/-- Go `Database.Create(&r)`: appends the record under the next primary key. -/
def DB.Create (db : DB) (r : LicensePlateRequest) : DB :=
  { rows := db.rows ++ [{ r with ID := db.nextID }], nextID := db.nextID + 1 }

/-! ## Logging and the notifier (`FinePerson`) -/

/-- A `*slog.Logger` that is not nil. -/
inductive Logger where
  | textHandler
  deriving DecidableEq, Repr

/-- How a call ends: it returns, or it panics. -/
inductive Flow where
  | returns
  | panics
  deriving DecidableEq, Repr

/-- The package-level `var Log *slog.Logger` of `src/main.go`.  No statement of the
program assigns it: `Log := slog.New(...)` in `main` declares a new local variable that
shadows it.  It is nil for the whole run. -/
def Log : Option Logger := none

/-- Go `l.Info(...)` and `l.Error(...)` on a `*slog.Logger`: a nil receiver is
dereferenced. -/
def Logger.log : Option Logger → Flow
  | none => Flow.panics
  | some _ => Flow.returns

/-- Go `FinePerson(plate, kmh)`.  `newRequestErr` tells whether `http.NewRequest` fails
on the configured URL.  On failure the function logs through the package-level `Log` and
returns; otherwise it sends the request and then logs through the package-level `Log`. -/
def FinePerson (newRequestErr : Bool) (_plate : String) (_kmh : F64) : Flow :=
  if newRequestErr then
    -- Log.Error("couldn't send notification to ntfy", ...); return
    Logger.log Log
  else
    -- http.DefaultClient.Do(req); Log.Info("sent notification to ntfy", ...)
    Logger.log Log

/-! ## The `POST /licenseplate` handler -/

/-- The values `r.FormValue` returns for `plate`, `timestamp` and `hostname`. -/
structure Form where
  plate : String
  timestamp : String
  hostname : String
  deriving DecidableEq, Repr

/-- What the client receives. -/
inductive Response where
  /-- Status 200 with the JSON object of the submitted plate, timestamp and hostname. -/
  | ok (plate timestamp hostname : String)
  /-- Go `http.Error(w, body, code)`. -/
  | error (code : ℕ) (body : String)
  /-- The handler panicked before writing a response. -/
  | aborted
  deriving DecidableEq, Repr

/-- The effect of one request: the database afterwards, the response, and the calls of
`FinePerson` in order. -/
structure Outcome where
  db : DB
  response : Response
  fined : List (String × F64)
  deriving DecidableEq, Repr

/-- Body of the response to an unparseable form. -/
def msgForm : String := "\x7b\"error\": \"could not parse form\"\x7d"

/-- Body of the response to an exact duplicate. -/
def msgDuplicate : String := "\x7b\"error\": \"similar license plate already exists\"\x7d"

/-- Body of the response to an unparseable timestamp. -/
def msgTimestamp : String := "\x7b\"error\": \"invalid timestamp format\"\x7d"

/-- Body of the response to a speeding plate. -/
def msgSpeeding : String := "\x7b\"message\": \"license plate is speeding\"\x7d"

/-- Body of the response to a plate that is not speeding. -/
def msgNotSpeeding : String := "\x7b\"message\": \"license plate is not speeding\"\x7d"

/-- The handler of `POST /licenseplate` (`src/main.go`, lines 50 to 137).  `form` is
`none` when `r.ParseForm()` fails.  The two queries either find a row or end in
`gorm.ErrRecordNotFound`; `json.Marshal` of a map of strings does not fail. -/
def licensePlateHandler (parse : String → Option Time) (newRequestErr : Bool) (db : DB)
    (form : Option Form) : Outcome :=
  match form with
  | none => ⟨db, Response.error 400 msgForm, []⟩
  | some f =>
    let requestData : LicensePlateRequest := ⟨0, f.plate, f.timestamp, f.hostname⟩
    match db.firstByPlateAndTimestamp requestData.Plate requestData.Timestamp with
    | some existingRequest =>
      ⟨db.Delete existingRequest, Response.error 400 msgDuplicate, []⟩
    | none =>
      match db.firstByPlate requestData.Plate with
      | some existingRequest =>
        match parse existingRequest.Timestamp, parse requestData.Timestamp with
        | some existingTime, some currentTime =>
          let diff := (Time.Sub currentTime existingTime).Seconds
          if diff > 300 then
            ⟨(db.Delete existingRequest).Create requestData,
              Response.ok f.plate f.timestamp f.hostname, []⟩
          else if kmh diff > 30 then
            match FinePerson newRequestErr requestData.Plate (kmh diff) with
            | Flow.panics => ⟨db, Response.aborted, [(requestData.Plate, kmh diff)]⟩
            | Flow.returns =>
              ⟨db, Response.error 400 msgSpeeding, [(requestData.Plate, kmh diff)]⟩
          else ⟨db, Response.error 400 msgNotSpeeding, []⟩
        | _, _ => ⟨db, Response.error 400 msgTimestamp, []⟩
      | none =>
        ⟨db.Create requestData, Response.ok f.plate f.timestamp f.hostname, []⟩

/-- The database after a sequence of requests, served one at a time. -/
def serve (parse : String → Option Time) (newRequestErr : Bool) :
    DB → List (Option Form) → DB
  | db, [] => db
  | db, f :: fs => serve parse newRequestErr (licensePlateHandler parse newRequestErr db f).db fs

/-! ## Startup (`main`, `InitializeDb`) -/

/-- Go `os.Getenv(key)`: the value of the variable, the empty string when it is unset. -/
def Getenv (env : String → Option String) (key : String) : String :=
  (env key).getD ""

/-- Go `InitializeDb()`: when `gorm.Open` fails it logs through the package-level `Log`
and returns. -/
def InitializeDb (openErr : Bool) : Flow :=
  if openErr then Logger.log Log else Flow.returns

/-- How `main` ends up. -/
inductive Startup where
  /-- Logged "could not load env var" and returned before anything else. -/
  | exitedEarly
  /-- Panicked inside `InitializeDb`. -/
  | crashed
  /-- Registered the routes, initialised the database and listens on `:8080`. -/
  | serving
  deriving DecidableEq, Repr

/-- Go `main` (`src/main.go`, lines 31 to 145). -/
def main (env : String → Option String) (openErr : Bool) : Startup :=
  if Getenv env "KAMERAFYR_SERVER_NTFY_URL" ≠ "" then Startup.exitedEarly
  else
    match InitializeDb openErr with
    | Flow.panics => Startup.crashed
    | Flow.returns => Startup.serving

/-- One submission of `(plate, timestamp, hostname)` whose form parses. -/
def submit (parse : String → Option Time) (newRequestErr : Bool) (db : DB)
    (plate timestamp hostname : String) : Outcome :=
  licensePlateHandler parse newRequestErr db (some ⟨plate, timestamp, hostname⟩)

/-- The database after one sighting of plate `AB12345` at 10:00:00.000 (+02:00) was
stored in the fresh table. -/
def oneSighting : DB :=
  ⟨[⟨1, "AB12345", "2024-05-01T10:00:00.000+02:00", "cam1"⟩], 2⟩

/-- A database whose only row carries a timestamp that does not parse. -/
def oneBadSighting : DB :=
  ⟨[⟨1, "AB12345", "yesterday", "cam1"⟩], 2⟩

/-- An environment in which only `KAMERAFYR_SERVER_NTFY_URL` is set. -/
def envWithURL (url : String) : String → Option String :=
  fun key => if key = "KAMERAFYR_SERVER_NTFY_URL" then some url else none

/-- An environment in which no variable is set. -/
def envUnset : String → Option String := fun _ => none

/-! ## The one-sighting-per-plate invariant -/

/-- No two rows share a plate. -/
def PlateUnique (rows : List LicensePlateRequest) : Prop :=
  rows.Pairwise (fun a b => a.Plate ≠ b.Plate)

/-- No two rows share both plate and timestamp. -/
def PairUnique (rows : List LicensePlateRequest) : Prop :=
  rows.Pairwise (fun a b => ¬(a.Plate = b.Plate ∧ a.Timestamp = b.Timestamp))

instance (rows : List LicensePlateRequest) : Decidable (PlateUnique rows) := by
  unfold PlateUnique; infer_instance

instance (rows : List LicensePlateRequest) : Decidable (PairUnique rows) := by
  unfold PairUnique; infer_instance

/-! ## Rounding to binary64 is monotone -/

theorem log2Fuel_spec : ∀ (fuel n : ℕ), n ≤ fuel → 0 < n →
    2 ^ log2Fuel fuel n ≤ n ∧ n < 2 ^ (log2Fuel fuel n + 1)
  | 0, n, h, hn => by omega
  | fuel + 1, n, h, hn => by
    unfold log2Fuel
    split
    · constructor <;> simp <;> omega
    · have ih := log2Fuel_spec fuel (n / 2) (by omega) (by omega)
      rw [pow_succ, pow_succ]
      rw [pow_succ] at ih
      constructor <;> omega

theorem log2_spec {n : ℕ} (hn : 0 < n) : 2 ^ log2 n ≤ n ∧ n < 2 ^ (log2 n + 1) :=
  log2Fuel_spec n n le_rfl hn

theorem ilog2_spec {q : ℚ} (hq : 0 < q) :
    (2 : ℚ) ^ ilog2 q ≤ q ∧ q < (2 : ℚ) ^ (ilog2 q + 1) := by
  have hnum : 0 < q.num := Rat.num_pos.mpr hq
  have hn : 0 < q.num.natAbs := Int.natAbs_pos.mpr hnum.ne'
  have hd : 0 < q.den := q.den_pos
  obtain ⟨hn1, hn2⟩ := log2_spec hn
  obtain ⟨hd1, hd2⟩ := log2_spec hd
  set a := log2 q.num.natAbs
  set b := log2 q.den
  have hqe : q = (q.num.natAbs : ℚ) / (q.den : ℚ) := by
    have h1 : ((q.num.natAbs : ℕ) : ℚ) = (q.num : ℚ) := by
      rw [← Int.cast_natCast, Int.natAbs_of_nonneg hnum.le]
    rw [h1]
    exact (Rat.num_div_den q).symm
  have hn1q : (2 : ℚ) ^ a ≤ (q.num.natAbs : ℚ) := by exact_mod_cast hn1
  have hn2q : (q.num.natAbs : ℚ) < (2 : ℚ) ^ (a + 1) := by exact_mod_cast hn2
  have hd1q : (2 : ℚ) ^ b ≤ (q.den : ℚ) := by exact_mod_cast hd1
  have hd2q : (q.den : ℚ) < (2 : ℚ) ^ (b + 1) := by exact_mod_cast hd2
  have hdq : (0 : ℚ) < (q.den : ℚ) := by exact_mod_cast hd
  have h2b : (0 : ℚ) < (2 : ℚ) ^ b := by positivity
  have two : (2 : ℚ) ≠ 0 := two_ne_zero
  have e1 : (2 : ℚ) ^ ((a : ℤ) - (b : ℤ)) = (2 : ℚ) ^ a / (2 : ℚ) ^ b := by
    rw [zpow_sub₀ two, zpow_natCast, zpow_natCast]
  unfold ilog2
  simp only
  split
  · rename_i h
    refine ⟨h, ?_⟩
    rw [show ((a : ℤ) - (b : ℤ) + 1) = ((a + 1 : ℕ) : ℤ) - (b : ℤ) by push_cast; ring]
    rw [zpow_sub₀ two, zpow_natCast, zpow_natCast]
    rw [hqe, div_lt_div_iff₀ hdq h2b]
    calc (q.num.natAbs : ℚ) * 2 ^ b < 2 ^ (a + 1) * 2 ^ b := by
          apply mul_lt_mul_of_pos_right hn2q h2b
      _ ≤ 2 ^ (a + 1) * (q.den : ℚ) := by
          apply mul_le_mul_of_nonneg_left hd1q (by positivity)
  · rename_i h
    push_neg at h
    constructor
    · rw [show ((a : ℤ) - (b : ℤ) - 1) = (a : ℤ) - ((b + 1 : ℕ) : ℤ) by push_cast; ring]
      rw [zpow_sub₀ two, zpow_natCast, zpow_natCast]
      have h2b1 : (0 : ℚ) < (2 : ℚ) ^ (b + 1) := by positivity
      rw [hqe, div_le_div_iff₀ h2b1 hdq]
      calc (2 : ℚ) ^ a * (q.den : ℚ) ≤ 2 ^ a * 2 ^ (b + 1) := by
            apply mul_le_mul_of_nonneg_left hd2q.le (by positivity)
        _ ≤ (q.num.natAbs : ℚ) * 2 ^ (b + 1) := by
            apply mul_le_mul_of_nonneg_right hn1q (by positivity)
    · rw [show ((a : ℤ) - (b : ℤ) - 1 + 1) = (a : ℤ) - (b : ℤ) by ring]
      exact h


theorem roundHalfEven_cases (q : ℚ) :
    roundHalfEven q = ⌊q⌋ ∨ roundHalfEven q = ⌊q⌋ + 1 := by
  unfold roundHalfEven
  simp only
  split_ifs <;> simp

theorem roundHalfEven_intCast (n : ℤ) : roundHalfEven (n : ℚ) = n := by
  unfold roundHalfEven
  simp

theorem roundHalfEven_mono {x y : ℚ} (h : x ≤ y) : roundHalfEven x ≤ roundHalfEven y := by
  have hf : ⌊x⌋ ≤ ⌊y⌋ := Int.floor_le_floor h
  rcases lt_or_eq_of_le hf with hlt | heq
  · have h1 : roundHalfEven x ≤ ⌊x⌋ + 1 := by
      rcases roundHalfEven_cases x with h | h <;> omega
    have h2 : ⌊y⌋ ≤ roundHalfEven y := by
      rcases roundHalfEven_cases y with h | h <;> omega
    omega
  · have hr : x - ⌊x⌋ ≤ y - ⌊y⌋ := by rw [heq]; linarith
    unfold roundHalfEven
    simp only
    rw [heq] at hr ⊢
    split_ifs <;> first | omega | (exfalso; linarith)


theorem two_zpow_pos (e : ℤ) : (0 : ℚ) < (2 : ℚ) ^ e := by positivity

/-- A positive rational is rounded to a value in the closure of its binade. -/
theorem round64Pos_bounds {q : ℚ} (hq : 0 < q) :
    (2 : ℚ) ^ ilog2 q ≤ round64Pos q ∧ round64Pos q ≤ (2 : ℚ) ^ (ilog2 q + 1) := by
  obtain ⟨h1, h2⟩ := ilog2_spec hq
  set e := ilog2 q with he
  have two : (2 : ℚ) ≠ 0 := two_ne_zero
  have hs : (0 : ℚ) < (2 : ℚ) ^ (52 - e) := two_zpow_pos _
  have ht : (0 : ℚ) < (2 : ℚ) ^ (e - 52) := two_zpow_pos _
  have hlo : ((2 ^ 52 : ℤ) : ℚ) ≤ q * (2 : ℚ) ^ (52 - e) := by
    have : (2 : ℚ) ^ e * (2 : ℚ) ^ (52 - e) = ((2 ^ 52 : ℤ) : ℚ) := by
      rw [← zpow_add₀ two, show e + (52 - e) = (52 : ℤ) by ring]; norm_num
    rw [← this]
    exact mul_le_mul_of_nonneg_right h1 hs.le
  have hhi : q * (2 : ℚ) ^ (52 - e) ≤ ((2 ^ 53 : ℤ) : ℚ) := by
    have : (2 : ℚ) ^ (e + 1) * (2 : ℚ) ^ (52 - e) = ((2 ^ 53 : ℤ) : ℚ) := by
      rw [← zpow_add₀ two, show e + 1 + (52 - e) = (53 : ℤ) by ring]; norm_num
    rw [← this]
    exact mul_le_mul_of_nonneg_right h2.le hs.le
  have rlo := roundHalfEven_mono hlo
  have rhi := roundHalfEven_mono hhi
  rw [roundHalfEven_intCast] at rlo rhi
  have rloq : ((2 ^ 52 : ℤ) : ℚ) ≤ (roundHalfEven (q * (2 : ℚ) ^ (52 - e)) : ℚ) := by
    exact_mod_cast rlo
  have rhiq : (roundHalfEven (q * (2 : ℚ) ^ (52 - e)) : ℚ) ≤ ((2 ^ 53 : ℤ) : ℚ) := by
    exact_mod_cast rhi
  unfold round64Pos
  simp only
  rw [← he]
  constructor
  · have : (2 : ℚ) ^ e = ((2 ^ 52 : ℤ) : ℚ) * (2 : ℚ) ^ (e - 52) := by
      rw [show ((2 ^ 52 : ℤ) : ℚ) = (2 : ℚ) ^ (52 : ℤ) by norm_num, ← zpow_add₀ two]
      congr 1; ring
    rw [this]
    exact mul_le_mul_of_nonneg_right rloq ht.le
  · have : (2 : ℚ) ^ (e + 1) = ((2 ^ 53 : ℤ) : ℚ) * (2 : ℚ) ^ (e - 52) := by
      rw [show ((2 ^ 53 : ℤ) : ℚ) = (2 : ℚ) ^ (53 : ℤ) by norm_num, ← zpow_add₀ two]
      congr 1; ring
    rw [this]
    exact mul_le_mul_of_nonneg_right rhiq ht.le

theorem round64Pos_pos {q : ℚ} (hq : 0 < q) : 0 < round64Pos q :=
  lt_of_lt_of_le (two_zpow_pos _) (round64Pos_bounds hq).1

theorem ilog2_mono {x y : ℚ} (hx : 0 < x) (h : x ≤ y) : ilog2 x ≤ ilog2 y := by
  have hy : 0 < y := lt_of_lt_of_le hx h
  have h1 := (ilog2_spec hx).1
  have h2 := (ilog2_spec hy).2
  have : (2 : ℚ) ^ ilog2 x < (2 : ℚ) ^ (ilog2 y + 1) := lt_of_le_of_lt (h1.trans h) h2
  rw [zpow_lt_zpow_iff_right₀ (by norm_num : (1 : ℚ) < 2)] at this
  omega

theorem round64Pos_mono {x y : ℚ} (hx : 0 < x) (h : x ≤ y) :
    round64Pos x ≤ round64Pos y := by
  have hy : 0 < y := lt_of_lt_of_le hx h
  rcases lt_or_eq_of_le (ilog2_mono hx h) with hlt | heq
  · calc round64Pos x ≤ (2 : ℚ) ^ (ilog2 x + 1) := (round64Pos_bounds hx).2
      _ ≤ (2 : ℚ) ^ ilog2 y := zpow_le_zpow_right₀ (by norm_num) (by omega)
      _ ≤ round64Pos y := (round64Pos_bounds hy).1
  · unfold round64Pos
    simp only
    rw [heq]
    apply mul_le_mul_of_nonneg_right _ (two_zpow_pos _).le
    have : x * (2 : ℚ) ^ (52 - ilog2 y) ≤ y * (2 : ℚ) ^ (52 - ilog2 y) :=
      mul_le_mul_of_nonneg_right h (two_zpow_pos _).le
    exact_mod_cast roundHalfEven_mono this

/-- Rounding to binary64 is monotone. -/
theorem round64_mono {x y : ℚ} (h : x ≤ y) : round64 x ≤ round64 y := by
  unfold round64
  rcases lt_trichotomy x 0 with hx | hx | hx <;> rcases lt_trichotomy y 0 with hy | hy | hy
  · have hx0 : x ≠ 0 := hx.ne
    have hy0 : y ≠ 0 := hy.ne
    simp only [hx0, hy0, if_false, not_lt.mpr hx.le, not_lt.mpr hy.le]
    exact neg_le_neg (round64Pos_mono (by linarith) (by linarith))
  · have hx0 : x ≠ 0 := hx.ne
    simp only [hx0, hy, if_false, if_true, not_lt.mpr hx.le]
    have := round64Pos_pos (show 0 < -x by linarith)
    linarith
  · have hx0 : x ≠ 0 := hx.ne
    have hy0 : y ≠ 0 := hy.ne'
    simp only [hx0, hy0, if_false, if_true, not_lt.mpr hx.le, hy]
    have := round64Pos_pos (show 0 < -x by linarith)
    have := round64Pos_pos hy
    linarith
  · exfalso; linarith
  · simp [hx, hy]
  · have hy0 : y ≠ 0 := hy.ne'
    simp only [hx, hy0, if_false, if_true, hy]
    exact (round64Pos_pos hy).le
  · exfalso; linarith
  · exfalso; linarith
  · have hx0 : x ≠ 0 := hx.ne'
    have hy0 : y ≠ 0 := hy.ne'
    simp only [hx0, hy0, if_false, if_true, hx, hy]
    exact round64Pos_mono hx h


theorem F64.ofInt_mono {a b : ℤ} (h : a ≤ b) : F64.ofInt a ≤ F64.ofInt b :=
  round64_mono (by exact_mod_cast h)

theorem F64.add_mono {a b c d : F64} (h1 : a ≤ c) (h2 : b ≤ d) : F64.add a b ≤ F64.add c d :=
  round64_mono (add_le_add h1 h2)

theorem F64.div_mono_left {a b c : F64} (hc : 0 < c) (h : a ≤ b) : F64.div a c ≤ F64.div b c :=
  round64_mono (div_le_div_of_nonneg_right h hc.le)

theorem F64.mul_mono_left {a b c : F64} (hc : 0 < c) (h : a ≤ b) : F64.mul a c ≤ F64.mul b c :=
  round64_mono (mul_le_mul_of_nonneg_right h hc.le)

theorem secondsOfParts_mono {s1 n1 s2 n2 : ℤ} (hs : s1 ≤ s2) (hn : n1 ≤ n2) :
    secondsOfParts s1 n1 ≤ secondsOfParts s2 n2 :=
  F64.add_mono (F64.ofInt_mono hs) (F64.div_mono_left (by norm_num) (F64.ofInt_mono hn))

theorem Seconds_eq_of_nonneg {d : ℤ} (hd : 0 ≤ d) :
    Duration.Seconds d = secondsOfParts (d / 1000000000) (d % 1000000000) := by
  unfold Duration.Seconds secondsOfParts Second
  simp only
  rw [Int.tdiv_eq_ediv hd (by norm_num), Int.tmod_eq_emod hd (by norm_num)]

theorem Seconds_nonpos {d : ℤ} (hd : d ≤ 0) : Duration.Seconds d ≤ 0 := by
  have h1 : Int.tdiv d Second ≤ 0 := by
    have := Int.tdiv_nonneg (show 0 ≤ -d by omega) (show (0 : ℤ) ≤ Second by decide)
    rw [Int.neg_tdiv] at this
    omega
  have h2 : Int.tmod d Second ≤ 0 := by
    have h3 := Int.tmod_nonneg Second (show 0 ≤ -d by omega)
    have h4 := Int.tmod_add_tdiv (-d) Second
    have h5 := Int.tmod_add_tdiv d Second
    rw [Int.neg_tdiv] at h4
    have : (-d).tmod Second = -(d.tmod Second) := by linarith
    omega
  have : Duration.Seconds d ≤ secondsOfParts 0 0 := secondsOfParts_mono h1 h2
  exact this.trans (by decide!)

theorem kmh_mono {a b : F64} (h : a ≤ b) : kmh a ≤ kmh b :=
  F64.mul_mono_left (by norm_num) (F64.div_mono_left (by norm_num) h)

/-- The test `diff > 300` of the handler holds exactly when the duration exceeds 300 s. -/
theorem seconds_gt_300_iff (d : ℤ) : 300 < Duration.Seconds d ↔ 300 * Second < d := by
  constructor
  · intro h
    by_contra hc
    replace hc : d ≤ (300000000000 : ℤ) := not_lt.mp hc
    rcases le_or_lt d 0 with h0 | h0
    · have := Seconds_nonpos h0
      linarith
    · rw [Seconds_eq_of_nonneg h0.le] at h
      rcases lt_or_eq_of_le hc with hlt | heq
      · have : secondsOfParts (d / 1000000000) (d % 1000000000)
            ≤ secondsOfParts 299 999999999 :=
          secondsOfParts_mono (by omega) (by omega)
        have h2 : secondsOfParts 299 999999999 ≤ 300 := by decide!
        linarith
      · rw [heq] at h
        have h2 : secondsOfParts (300000000000 / 1000000000)
            (300000000000 % 1000000000) ≤ 300 := by decide!
        linarith
  · intro h
    replace h : (300000000000 : ℤ) < d := h
    rw [Seconds_eq_of_nonneg (by omega)]
    rcases le_or_lt 301 (d / 1000000000) with h1 | h1
    · have : secondsOfParts 301 0 ≤ secondsOfParts (d / 1000000000) (d % 1000000000) :=
        secondsOfParts_mono h1 (by omega)
      have h2 : 300 < secondsOfParts 301 0 := by decide!
      linarith
    · have : secondsOfParts 300 1 ≤ secondsOfParts (d / 1000000000) (d % 1000000000) :=
        secondsOfParts_mono (by omega) (by omega)
      have h2 : 300 < secondsOfParts 300 1 := by decide!
      linarith

/-- From 208333334 ns on, the computed speed exceeds 30. -/
theorem kmh_gt_30_of_ge {d : ℤ} (h : 208333334 ≤ d) : 30 < kmh (Duration.Seconds d) := by
  rw [Seconds_eq_of_nonneg (by omega)]
  rcases le_or_lt 1 (d / 1000000000) with h1 | h1
  · have : secondsOfParts 1 0 ≤ secondsOfParts (d / 1000000000) (d % 1000000000) :=
      secondsOfParts_mono h1 (by omega)
    have h2 : 30 < kmh (secondsOfParts 1 0) := by decide!
    exact lt_of_lt_of_le h2 (kmh_mono this)
  · have : secondsOfParts 0 208333334
        ≤ secondsOfParts (d / 1000000000) (d % 1000000000) :=
      secondsOfParts_mono (by omega) (by omega)
    have h2 : 30 < kmh (secondsOfParts 0 208333334) := by decide!
    exact lt_of_lt_of_le h2 (kmh_mono this)

/-- Up to 208333333 ns, negative durations included, the computed speed does not exceed
30. -/
theorem kmh_le_30_of_le {d : ℤ} (h : d ≤ 208333333) : kmh (Duration.Seconds d) ≤ 30 := by
  rcases le_or_lt d 0 with h0 | h0
  · have h1 : kmh (Duration.Seconds d) ≤ kmh 0 := kmh_mono (Seconds_nonpos h0)
    exact h1.trans (by decide!)
  · rw [Seconds_eq_of_nonneg h0.le]
    have : secondsOfParts (d / 1000000000) (d % 1000000000)
        ≤ secondsOfParts 0 208333333 :=
      secondsOfParts_mono (by omega) (by omega)
    have h2 : kmh (secondsOfParts 0 208333333) ≤ 30 := by decide!
    exact (kmh_mono this).trans h2

/-- In exact arithmetic, the speed `((d / 25) * 3600` for `d` seconds) of a duration of
`d` nanoseconds exceeds 30 exactly from 208333334 ns on. -/
theorem exact_speed_gt_30_iff (d : ℤ) :
    30 < ((d : ℚ) / 1000000000 / 25) * 3600 ↔ 208333334 ≤ d := by
  have hex : (d : ℚ) / 1000000000 / 25 * 3600 = (d : ℚ) * 144 / 1000000000 := by ring
  rw [hex, lt_div_iff₀ (by norm_num : (0 : ℚ) < 1000000000)]
  constructor
  · intro h
    have h2 : (30000000000 : ℤ) < d * 144 := by
      exact_mod_cast (by linarith : (30000000000 : ℚ) < d * 144)
    omega
  · intro h
    have h2 : ((208333334 : ℤ) : ℚ) ≤ (d : ℚ) := by exact_mod_cast h
    push_cast at h2
    linarith

/-- On every duration, the float test `kmh > 30` of the handler agrees with the test in
exact arithmetic. -/
theorem kmh_gt_30_iff_exact (d : ℤ) :
    30 < kmh (Duration.Seconds d) ↔ 30 < ((d : ℚ) / 1000000000 / 25) * 3600 := by
  rw [exact_speed_gt_30_iff]
  constructor
  · intro h
    by_contra hc
    have : kmh (Duration.Seconds d) ≤ 30 := kmh_le_30_of_le (by omega)
    linarith
  · intro h
    exact kmh_gt_30_of_ge h

/-! ## Lookups, deletion and creation -/

theorem firstByPlate_eq_none_iff (db : DB) (plate : String) :
    db.firstByPlate plate = none ↔ ∀ r ∈ db.rows, r.Plate ≠ plate := by
  simp [DB.firstByPlate, List.find?_eq_none]

theorem firstByPlateAndTimestamp_eq_none_iff (db : DB) (plate ts : String) :
    db.firstByPlateAndTimestamp plate ts = none ↔
      ∀ r ∈ db.rows, ¬(r.Plate = plate ∧ r.Timestamp = ts) := by
  simp [DB.firstByPlateAndTimestamp, List.find?_eq_none]

theorem firstByPlateAndTimestamp_none_of_firstByPlate_none {db : DB} {plate : String}
    (h : db.firstByPlate plate = none) (ts : String) :
    db.firstByPlateAndTimestamp plate ts = none := by
  rw [firstByPlateAndTimestamp_eq_none_iff]
  rw [firstByPlate_eq_none_iff] at h
  intro r hr hc
  exact h r hr hc.1

theorem firstByPlate_some_spec {db : DB} {plate : String} {e : LicensePlateRequest}
    (h : db.firstByPlate plate = some e) : e ∈ db.rows ∧ e.Plate = plate := by
  unfold DB.firstByPlate at h
  refine ⟨List.mem_of_find?_eq_some h, ?_⟩
  simpa using List.find?_some h

theorem firstByPlateAndTimestamp_some_spec {db : DB} {plate ts : String}
    {e : LicensePlateRequest} (h : db.firstByPlateAndTimestamp plate ts = some e) :
    e ∈ db.rows ∧ e.Plate = plate ∧ e.Timestamp = ts := by
  unfold DB.firstByPlateAndTimestamp at h
  refine ⟨List.mem_of_find?_eq_some h, ?_⟩
  simpa using List.find?_some h

theorem mem_Delete_rows {db : DB} {e r : LicensePlateRequest} :
    r ∈ (db.Delete e).rows ↔ r ∈ db.rows ∧ r.ID ≠ e.ID := by
  simp [DB.Delete]

theorem Create_rows (db : DB) (r : LicensePlateRequest) :
    (db.Create r).rows = db.rows ++ [{ r with ID := db.nextID }] := rfl

/-! ## The branches of the handler -/

/-- Steps 1 of the handler: an exact duplicate is deleted and the request rejected. -/
theorem handler_duplicate (parse : String → Option Time) (nre : Bool) {db : DB}
    {f : Form} {e : LicensePlateRequest}
    (h : db.firstByPlateAndTimestamp f.plate f.timestamp = some e) :
    licensePlateHandler parse nre db (some f)
      = ⟨db.Delete e, Response.error 400 msgDuplicate, []⟩ := by
  simp [licensePlateHandler, h]

/-- No row for the plate: the candidate is created and the response is 200. -/
theorem handler_first (parse : String → Option Time) (nre : Bool) {db : DB} {f : Form}
    (h : db.firstByPlate f.plate = none) :
    licensePlateHandler parse nre db (some f)
      = ⟨db.Create ⟨0, f.plate, f.timestamp, f.hostname⟩,
          Response.ok f.plate f.timestamp f.hostname, []⟩ := by
  simp [licensePlateHandler, h, firstByPlateAndTimestamp_none_of_firstByPlate_none h]

/-- A row for the plate exists and one of the two timestamps does not parse. -/
theorem handler_malformed (parse : String → Option Time) (nre : Bool) {db : DB}
    {f : Form} {e : LicensePlateRequest}
    (hdup : db.firstByPlateAndTimestamp f.plate f.timestamp = none)
    (he : db.firstByPlate f.plate = some e)
    (hp : parse e.Timestamp = none ∨ parse f.timestamp = none) :
    licensePlateHandler parse nre db (some f)
      = ⟨db, Response.error 400 msgTimestamp, []⟩ := by
  rcases hp with hp | hp
  · simp [licensePlateHandler, hdup, he, hp]
  · cases h0 : parse e.Timestamp <;> simp [licensePlateHandler, hdup, he, hp, h0]

/-- A row for the plate exists, both timestamps parse, and the difference in seconds
exceeds 300: the row is deleted, the candidate created, the response is 200. -/
theorem handler_stale (parse : String → Option Time) (nre : Bool) {db : DB}
    {f : Form} {e : LicensePlateRequest} {t0 t1 : Time}
    (hdup : db.firstByPlateAndTimestamp f.plate f.timestamp = none)
    (he : db.firstByPlate f.plate = some e)
    (h0 : parse e.Timestamp = some t0) (h1 : parse f.timestamp = some t1)
    (hd : 300 < (Time.Sub t1 t0).Seconds) :
    licensePlateHandler parse nre db (some f)
      = ⟨(db.Delete e).Create ⟨0, f.plate, f.timestamp, f.hostname⟩,
          Response.ok f.plate f.timestamp f.hostname, []⟩ := by
  simp [licensePlateHandler, hdup, he, h0, h1, hd]

/-- The speeding branch: `FinePerson` is called once with the plate and the speed, then
panics, so no response is written; the database is unchanged. -/
theorem handler_speeding (parse : String → Option Time) (nre : Bool) {db : DB}
    {f : Form} {e : LicensePlateRequest} {t0 t1 : Time}
    (hdup : db.firstByPlateAndTimestamp f.plate f.timestamp = none)
    (he : db.firstByPlate f.plate = some e)
    (h0 : parse e.Timestamp = some t0) (h1 : parse f.timestamp = some t1)
    (hd : ¬ 300 < (Time.Sub t1 t0).Seconds)
    (hk : 30 < kmh (Time.Sub t1 t0).Seconds) :
    licensePlateHandler parse nre db (some f)
      = ⟨db, Response.aborted, [(f.plate, kmh (Time.Sub t1 t0).Seconds)]⟩ := by
  cases nre <;>
    simp [licensePlateHandler, hdup, he, h0, h1, hd, hk, FinePerson, Log, Logger.log]

/-- The not-speeding branch: nothing is changed and nobody is fined. -/
theorem handler_notSpeeding (parse : String → Option Time) (nre : Bool) {db : DB}
    {f : Form} {e : LicensePlateRequest} {t0 t1 : Time}
    (hdup : db.firstByPlateAndTimestamp f.plate f.timestamp = none)
    (he : db.firstByPlate f.plate = some e)
    (h0 : parse e.Timestamp = some t0) (h1 : parse f.timestamp = some t1)
    (hd : ¬ 300 < (Time.Sub t1 t0).Seconds)
    (hk : ¬ 30 < kmh (Time.Sub t1 t0).Seconds) :
    licensePlateHandler parse nre db (some f)
      = ⟨db, Response.error 400 msgNotSpeeding, []⟩ := by
  simp [licensePlateHandler, hdup, he, h0, h1, hd, hk]

/-! ## Saturated subtraction of instants -/

theorem Sub_gt_300_iff (t u : Time) :
    300 * Second < Time.Sub t u ↔ 300 * Second < t - u := by
  have key : ∀ a : ℤ, (300000000000 < (if a < -9223372036854775808
      then (-9223372036854775808 : ℤ)
      else if 9223372036854775807 < a then 9223372036854775807 else a))
      ↔ 300000000000 < a := by
    intro a
    split_ifs <;> omega
  exact key (t - u)

theorem Sub_neg_of_lt {t u : Time} (h : t < u) : Time.Sub t u < 0 := by
  have key : ∀ a : ℤ, a < 0 → (if a < -9223372036854775808
      then (-9223372036854775808 : ℤ)
      else if 9223372036854775807 < a then 9223372036854775807 else a) < 0 := by
    intro a ha
    split_ifs <;> omega
  exact key (t - u) (sub_neg.mpr h)

theorem Seconds_Sub_gt_300_iff (t u : Time) :
    300 < (Time.Sub t u).Seconds ↔ 300 * Second < t - u := by
  rw [seconds_gt_300_iff, Sub_gt_300_iff]

theorem Sub_ge_speeding_iff (t u : Time) :
    208333334 ≤ Time.Sub t u ↔ 208333334 ≤ t - u := by
  have key : ∀ a : ℤ, (208333334 ≤ (if a < -9223372036854775808
      then (-9223372036854775808 : ℤ)
      else if 9223372036854775807 < a then 9223372036854775807 else a))
      ↔ 208333334 ≤ a := by
    intro a
    split_ifs <;> omega
  exact key (t - u)

/-- The test `kmh > 30` of the handler, on the saturated difference of two instants,
agrees with the exact speed `((t - u) / 25) * 3600` of their true difference in seconds
exceeding 30. -/
theorem kmh_Sub_gt_30_iff_exact (t u : Time) :
    30 < kmh (Time.Sub t u).Seconds
      ↔ 30 < (((t - u : ℤ) : ℚ) / 1000000000 / 25) * 3600 := by
  rw [kmh_gt_30_iff_exact, exact_speed_gt_30_iff, exact_speed_gt_30_iff]
  exact Sub_ge_speeding_iff t u

/-! ## Facts shared by the claims -/

theorem plate_absent_after_Delete {db : DB} {plate : String} {e : LicensePlateRequest}
    (hu : PlateUnique db.rows) (he : db.firstByPlate plate = some e) :
    ∀ r ∈ (db.Delete e).rows, r.Plate ≠ plate := by
  obtain ⟨hmem, hpl⟩ := firstByPlate_some_spec he
  intro r hr hc
  obtain ⟨hr1, hr2⟩ := mem_Delete_rows.mp hr
  have hsym : Symmetric (fun a b : LicensePlateRequest => a.Plate ≠ b.Plate) :=
    fun a b hab => fun h => hab h.symm
  by_cases hre : r = e
  · exact hr2 (by rw [hre])
  · exact List.Pairwise.forall hsym hu hr1 hmem hre (by rw [hc, hpl])

theorem PlateUnique_Delete {db : DB} (hu : PlateUnique db.rows) (e : LicensePlateRequest) :
    PlateUnique (db.Delete e).rows :=
  List.Pairwise.sublist (List.filter_sublist _) hu

theorem PlateUnique_Create {db : DB} (hu : PlateUnique db.rows) (r : LicensePlateRequest)
    (h : ∀ x ∈ db.rows, x.Plate ≠ r.Plate) : PlateUnique (db.Create r).rows := by
  unfold PlateUnique at hu ⊢
  rw [Create_rows, List.pairwise_append]
  refine ⟨hu, List.pairwise_singleton _ _, ?_⟩
  intro a ha b hb
  rw [List.mem_singleton] at hb
  rw [hb]
  exact h a ha

/-- One request keeps the rows free of two events with one plate. -/
theorem handler_PlateUnique (parse : String → Option Time) (nre : Bool) (db : DB)
    (form : Option Form) (hu : PlateUnique db.rows) :
    PlateUnique (licensePlateHandler parse nre db form).db.rows := by
  cases form with
  | none => simpa [licensePlateHandler] using hu
  | some f =>
    cases hdup : db.firstByPlateAndTimestamp f.plate f.timestamp with
    | some e =>
      rw [handler_duplicate parse nre hdup]
      exact PlateUnique_Delete hu e
    | none =>
      cases he : db.firstByPlate f.plate with
      | none =>
        rw [handler_first parse nre he]
        exact PlateUnique_Create hu _ ((firstByPlate_eq_none_iff db f.plate).mp he)
      | some e =>
        cases h0 : parse e.Timestamp with
        | none => rw [handler_malformed parse nre hdup he (Or.inl h0)]; exact hu
        | some t0 =>
          cases h1 : parse f.timestamp with
          | none => rw [handler_malformed parse nre hdup he (Or.inr h1)]; exact hu
          | some t1 =>
            by_cases hd : 300 < (Time.Sub t1 t0).Seconds
            · rw [handler_stale parse nre hdup he h0 h1 hd]
              exact PlateUnique_Create (PlateUnique_Delete hu e) _
                (plate_absent_after_Delete hu he)
            · by_cases hk : 30 < kmh (Time.Sub t1 t0).Seconds
              · rw [handler_speeding parse nre hdup he h0 h1 hd hk]; exact hu
              · rw [handler_notSpeeding parse nre hdup he h0 h1 hd hk]; exact hu

theorem serve_PlateUnique (parse : String → Option Time) (nre : Bool) :
    ∀ (reqs : List (Option Form)) (db : DB), PlateUnique db.rows →
      PlateUnique (serve parse nre db reqs).rows
  | [], _, hu => hu
  | f :: fs, db, hu =>
    serve_PlateUnique parse nre fs _ (handler_PlateUnique parse nre db f hu)

theorem PairUnique_of_PlateUnique {rows : List LicensePlateRequest}
    (hu : PlateUnique rows) : PairUnique rows :=
  List.Pairwise.imp (fun hab h => hab h.1) hu

/-! ## The claims -/

/-- C1: in a store with no event for the plate, a submission is answered with status 200
and the submitted plate, timestamp and hostname, the notifier is not called, the store
becomes the old store followed by exactly the candidate, and both the lookup by plate and
the lookup by plate and timestamp then find the candidate. -/
theorem first_sighting_stored (parse : String → Option Time) (nre : Bool) (db : DB)
    (plate ts host : String) (h : ∀ r ∈ db.rows, r.Plate ≠ plate) :
    (submit parse nre db plate ts host).response = Response.ok plate ts host
    ∧ (submit parse nre db plate ts host).fined = []
    ∧ (submit parse nre db plate ts host).db.rows
        = db.rows ++ [⟨db.nextID, plate, ts, host⟩]
    ∧ (submit parse nre db plate ts host).db.firstByPlate plate
        = some ⟨db.nextID, plate, ts, host⟩
    ∧ (submit parse nre db plate ts host).db.firstByPlateAndTimestamp plate ts
        = some ⟨db.nextID, plate, ts, host⟩ := by
  have h1 : db.firstByPlate plate = none := (firstByPlate_eq_none_iff db plate).mpr h
  have h2 := firstByPlateAndTimestamp_none_of_firstByPlate_none h1 ts
  have e : submit parse nre db plate ts host
      = ⟨db.Create ⟨0, plate, ts, host⟩, Response.ok plate ts host, []⟩ :=
    handler_first parse nre (f := ⟨plate, ts, host⟩) h1
  rw [e]
  refine ⟨rfl, rfl, rfl, ?_, ?_⟩
  · unfold DB.firstByPlate at h1 ⊢
    simp [DB.Create, List.find?_append, h1]
  · unfold DB.firstByPlateAndTimestamp at h2 ⊢
    simp [DB.Create, List.find?_append, h2]

theorem first_sighting_stored_witness :
    (∀ r ∈ DB.empty.rows, r.Plate ≠ "AB12345")
    ∧ (submit parseTimestamp false DB.empty "AB12345" "2024-05-01T10:00:00.000+02:00"
        "cam1").db = oneSighting
    ∧ (submit parseTimestamp false DB.empty "AB12345" "2024-05-01T10:00:00.000+02:00"
        "cam1").db.firstByPlate "AB12345"
        = some ⟨1, "AB12345", "2024-05-01T10:00:00.000+02:00", "cam1"⟩ :=
  ⟨by decide, by decide,
    (first_sighting_stored parseTimestamp false DB.empty "AB12345"
      "2024-05-01T10:00:00.000+02:00" "cam1" (by decide)).2.2.2.1⟩

/-- C2: in a store with no event for the plate, submitting the same plate and timestamp
twice in a row stores the first submission (status 200) and rejects the second with
status 400 "similar license plate already exists"; after the second submission no stored
event has that plate and timestamp. -/
theorem duplicate_rejected (parse : String → Option Time) (nre : Bool) (db : DB)
    (plate ts host1 host2 : String) (h : ∀ r ∈ db.rows, r.Plate ≠ plate) :
    (submit parse nre db plate ts host1).response = Response.ok plate ts host1
    ∧ (submit parse nre (submit parse nre db plate ts host1).db plate ts host2).response
        = Response.error 400 msgDuplicate
    ∧ (∀ r ∈ (submit parse nre (submit parse nre db plate ts host1).db plate ts host2).db.rows,
        ¬(r.Plate = plate ∧ r.Timestamp = ts))
    ∧ (submit parse nre (submit parse nre db plate ts host1).db plate ts
        host2).db.firstByPlateAndTimestamp plate ts = none := by
  have h1 : db.firstByPlate plate = none := (firstByPlate_eq_none_iff db plate).mpr h
  have h2 := firstByPlateAndTimestamp_none_of_firstByPlate_none h1 ts
  have e : submit parse nre db plate ts host1
      = ⟨db.Create ⟨0, plate, ts, host1⟩, Response.ok plate ts host1, []⟩ :=
    handler_first parse nre (f := ⟨plate, ts, host1⟩) h1
  have hfind : (db.Create ⟨0, plate, ts, host1⟩).firstByPlateAndTimestamp plate ts
      = some ⟨db.nextID, plate, ts, host1⟩ := by
    unfold DB.firstByPlateAndTimestamp at h2 ⊢
    simp [DB.Create, List.find?_append, h2]
  have e2 : submit parse nre (db.Create ⟨0, plate, ts, host1⟩) plate ts host2
      = ⟨(db.Create ⟨0, plate, ts, host1⟩).Delete ⟨db.nextID, plate, ts, host1⟩,
          Response.error 400 msgDuplicate, []⟩ :=
    handler_duplicate parse nre (f := ⟨plate, ts, host2⟩) hfind
  rw [e]
  simp only
  rw [e2]
  have key : ∀ r ∈ ((db.Create ⟨0, plate, ts, host1⟩).Delete
      ⟨db.nextID, plate, ts, host1⟩).rows, ¬(r.Plate = plate ∧ r.Timestamp = ts) := by
    intro r hr hc
    rw [mem_Delete_rows, Create_rows, List.mem_append, List.mem_singleton] at hr
    rcases hr with ⟨hr | hr, hid⟩
    · exact h r hr hc.1
    · exact hid (by rw [hr])
  exact ⟨trivial, rfl, key, (firstByPlateAndTimestamp_eq_none_iff _ _ _).mpr key⟩

theorem duplicate_rejected_witness :
    (∀ r ∈ DB.empty.rows, r.Plate ≠ "AB12345")
    ∧ (submit parseTimestamp false
        (submit parseTimestamp false DB.empty "AB12345" "2024-05-01T10:00:00.000+02:00"
          "cam1").db
        "AB12345" "2024-05-01T10:00:00.000+02:00" "cam2")
      = ⟨⟨[], 2⟩, Response.error 400 msgDuplicate, []⟩
    ∧ (submit parseTimestamp false
        (submit parseTimestamp false DB.empty "AB12345" "2024-05-01T10:00:00.000+02:00"
          "cam1").db
        "AB12345" "2024-05-01T10:00:00.000+02:00" "cam2").response
      = Response.error 400 msgDuplicate :=
  ⟨by decide, by decide,
    (duplicate_rejected parseTimestamp false DB.empty "AB12345"
      "2024-05-01T10:00:00.000+02:00" "cam1" "cam2" (by decide)).2.1⟩

/-- C3 (the code at the failing inputs): with the sighting of 10:00:00.000 stored, a
submission of the same plate 3 s, 1 s and 0.5 s later makes the handler call `FinePerson`
once, with the plate and the speed 432, 144 and 72; `FinePerson` then dereferences the nil
package-level logger, so the handler panics and no response is written, where the claim
expects status 400 "license plate is speeding".  The store is unchanged. -/
theorem speeding_request_aborts :
    submit parseTimestamp false oneSighting "AB12345" "2024-05-01T10:00:03.000+02:00" "cam2"
      = ⟨oneSighting, Response.aborted, [("AB12345", 432)]⟩
    ∧ submit parseTimestamp false oneSighting "AB12345" "2024-05-01T10:00:01.000+02:00" "cam2"
      = ⟨oneSighting, Response.aborted, [("AB12345", 144)]⟩
    ∧ submit parseTimestamp false oneSighting "AB12345" "2024-05-01T10:00:00.500+02:00" "cam2"
      = ⟨oneSighting, Response.aborted, [("AB12345", 72)]⟩
    ∧ submit parseTimestamp true oneSighting "AB12345" "2024-05-01T10:00:03.000+02:00" "cam2"
      = ⟨oneSighting, Response.aborted, [("AB12345", 432)]⟩ := by
  refine ⟨?_, ?_, ?_, ?_⟩ <;> decide!

/-- C4: when the first stored sighting of the plate parses to `t0`, no stored event has
the exact plate and timestamp of the submission, and the submitted timestamp parses to
`t1`: if `t1 - t0` is at most 300 s and the speed `((t1 - t0) / 25) * 3600`, with
`t1 - t0` in seconds and in exact arithmetic, is at most 30, the response is status 400
"license plate is not speeding", the notifier is not called and the store is unchanged;
every submission with `t1 < t0` ends the same way. -/
theorem not_speeding (parse : String → Option Time) (nre : Bool) (db : DB)
    (plate ts host : String) (e : LicensePlateRequest) (t0 t1 : Time)
    (hdup : db.firstByPlateAndTimestamp plate ts = none)
    (he : db.firstByPlate plate = some e)
    (h0 : parse e.Timestamp = some t0) (h1 : parse ts = some t1) :
    (t1 - t0 ≤ 300 * Second →
      (((t1 - t0 : ℤ) : ℚ) / 1000000000 / 25) * 3600 ≤ 30 →
      submit parse nre db plate ts host = ⟨db, Response.error 400 msgNotSpeeding, []⟩)
    ∧ (t1 < t0 →
      submit parse nre db plate ts host = ⟨db, Response.error 400 msgNotSpeeding, []⟩) := by
  constructor
  · intro hd hk
    have hd2 : ¬ 300 < (Time.Sub t1 t0).Seconds := by
      rw [Seconds_Sub_gt_300_iff]; exact not_lt.mpr hd
    have hk2 : ¬ 30 < kmh (Time.Sub t1 t0).Seconds := by
      rw [kmh_Sub_gt_30_iff_exact]; exact not_lt.mpr hk
    exact handler_notSpeeding parse nre (f := ⟨plate, ts, host⟩) hdup he h0 h1 hd2 hk2
  · intro hlt
    have hneg := Sub_neg_of_lt hlt
    have hs : (Time.Sub t1 t0).Seconds ≤ 0 := Seconds_nonpos hneg.le
    have hd2 : ¬ 300 < (Time.Sub t1 t0).Seconds := by
      intro h; linarith
    have hk : kmh (Time.Sub t1 t0).Seconds ≤ 30 :=
      kmh_le_30_of_le (le_trans hneg.le (by norm_num))
    exact handler_notSpeeding parse nre (f := ⟨plate, ts, host⟩) hdup he h0 h1 hd2
      (not_lt.mpr hk)

theorem not_speeding_witness :
    submit parseTimestamp false oneSighting "AB12345" "2024-05-01T10:00:00.208+02:00" "cam2"
      = ⟨oneSighting, Response.error 400 msgNotSpeeding, []⟩
    ∧ submit parseTimestamp false oneSighting "AB12345" "2024-05-01T09:59:50.000+02:00" "cam2"
      = ⟨oneSighting, Response.error 400 msgNotSpeeding, []⟩ :=
  ⟨(not_speeding parseTimestamp false oneSighting "AB12345" "2024-05-01T10:00:00.208+02:00"
      "cam2" ⟨1, "AB12345", "2024-05-01T10:00:00.000+02:00", "cam1"⟩
      1714550400000000000 1714550400208000000
      (by decide) (by decide) (by decide!) (by decide!)).1 (by decide) (by decide!),
   (not_speeding parseTimestamp false oneSighting "AB12345" "2024-05-01T09:59:50.000+02:00"
      "cam2" ⟨1, "AB12345", "2024-05-01T10:00:00.000+02:00", "cam1"⟩
      1714550400000000000 1714550390000000000
      (by decide) (by decide) (by decide!) (by decide!)).2 (by decide)⟩

/-- C5 (the claim fails): with the sighting of 10:00:00.000 stored, a submission of the
same plate 301 s later is answered with status 200 and the candidate is stored in place of
the old sighting, so the store does hold an event for the plate afterwards. -/
theorem stale_candidate_is_stored :
    submit parseTimestamp false oneSighting "AB12345" "2024-05-01T10:05:01.000+02:00" "cam2"
      = ⟨⟨[⟨2, "AB12345", "2024-05-01T10:05:01.000+02:00", "cam2"⟩], 3⟩,
          Response.ok "AB12345" "2024-05-01T10:05:01.000+02:00" "cam2", []⟩
    ∧ ¬ (∀ r ∈ (submit parseTimestamp false oneSighting "AB12345"
          "2024-05-01T10:05:01.000+02:00" "cam2").db.rows, r.Plate ≠ "AB12345") := by
  constructor <;> decide!

/-- C5 (amended): when the first stored sighting `e` of the plate parses to `t0`, no stored
event has the exact plate and timestamp of the submission, the submitted timestamp parses
to `t1` and `t1 - t0` exceeds 300 s: the old sighting is deleted, the candidate is created
after it, the response is status 200 with the submitted fields and the notifier is not
called.  Afterwards `e` is not stored, the lookup by plate and timestamp finds the
candidate, and so does the lookup by plate when no two stored events shared a plate. -/
theorem stale_replaced (parse : String → Option Time) (nre : Bool) (db : DB)
    (plate ts host : String) (e : LicensePlateRequest) (t0 t1 : Time)
    (hdup : db.firstByPlateAndTimestamp plate ts = none)
    (he : db.firstByPlate plate = some e)
    (h0 : parse e.Timestamp = some t0) (h1 : parse ts = some t1)
    (hd : 300 * Second < t1 - t0) :
    submit parse nre db plate ts host
      = ⟨(db.Delete e).Create ⟨0, plate, ts, host⟩, Response.ok plate ts host, []⟩
    ∧ (submit parse nre db plate ts host).db.rows
      = db.rows.filter (fun x => x.ID != e.ID) ++ [⟨db.nextID, plate, ts, host⟩]
    ∧ e ∉ (submit parse nre db plate ts host).db.rows
    ∧ (submit parse nre db plate ts host).db.firstByPlateAndTimestamp plate ts
      = some ⟨db.nextID, plate, ts, host⟩
    ∧ (PlateUnique db.rows →
        (submit parse nre db plate ts host).db.firstByPlate plate
          = some ⟨db.nextID, plate, ts, host⟩) := by
  have hd2 : 300 < (Time.Sub t1 t0).Seconds := (Seconds_Sub_gt_300_iff t1 t0).mpr hd
  have eq : submit parse nre db plate ts host
      = ⟨(db.Delete e).Create ⟨0, plate, ts, host⟩, Response.ok plate ts host, []⟩ :=
    handler_stale parse nre (f := ⟨plate, ts, host⟩) hdup he h0 h1 hd2
  obtain ⟨hmem, hpl⟩ := firstByPlate_some_spec he
  have hnone := (firstByPlateAndTimestamp_eq_none_iff db plate ts).mp hdup
  have hets : e.Timestamp ≠ ts := fun h => hnone e hmem ⟨hpl, h⟩
  rw [eq]
  refine ⟨rfl, rfl, ?_, ?_, ?_⟩
  · intro hin
    rw [Create_rows, List.mem_append, List.mem_singleton] at hin
    rcases hin with hin | hin
    · exact (mem_Delete_rows.mp hin).2 rfl
    · exact hets (by rw [hin])
  · have hk : (db.Delete e).rows.find?
        (fun r => r.Plate == plate && r.Timestamp == ts) = none := by
      rw [List.find?_eq_none]
      intro r hr
      have := hnone r (mem_Delete_rows.mp hr).1
      simpa using this
    unfold DB.firstByPlateAndTimestamp
    simp only [Create_rows, List.find?_append, hk]
    simp [DB.Delete]
  · intro hu
    have hk : (db.Delete e).rows.find? (fun r => r.Plate == plate) = none := by
      rw [List.find?_eq_none]
      intro r hr
      simpa using plate_absent_after_Delete hu he r hr
    unfold DB.firstByPlate
    simp only [Create_rows, List.find?_append, hk]
    simp [DB.Delete]

theorem stale_replaced_witness :
    submit parseTimestamp false oneSighting "AB12345" "2024-05-01T10:05:00.001+02:00" "cam2"
      = ⟨(oneSighting.Delete ⟨1, "AB12345", "2024-05-01T10:00:00.000+02:00", "cam1"⟩).Create
            ⟨0, "AB12345", "2024-05-01T10:05:00.001+02:00", "cam2"⟩,
          Response.ok "AB12345" "2024-05-01T10:05:00.001+02:00" "cam2", []⟩ :=
  (stale_replaced parseTimestamp false oneSighting "AB12345" "2024-05-01T10:05:00.001+02:00"
    "cam2" ⟨1, "AB12345", "2024-05-01T10:00:00.000+02:00", "cam1"⟩
    1714550400000000000 1714550700001000000
    (by decide) (by decide) (by decide!) (by decide!) (by decide)).1

/-- C6: when the store holds a sighting of the plate but no event with the exact plate
and timestamp of the submission, and the timestamp of the first stored sighting or the
submitted timestamp does not parse, the response is status 400 "invalid timestamp format",
the notifier is not called and the store is unchanged. -/
theorem malformed_timestamp_rejected (parse : String → Option Time) (nre : Bool) (db : DB)
    (plate ts host : String) (e : LicensePlateRequest)
    (hdup : db.firstByPlateAndTimestamp plate ts = none)
    (he : db.firstByPlate plate = some e)
    (hp : parse e.Timestamp = none ∨ parse ts = none) :
    (submit parse nre db plate ts host).response = Response.error 400 msgTimestamp
    ∧ (submit parse nre db plate ts host).fined = []
    ∧ (submit parse nre db plate ts host).db = db := by
  have eq : submit parse nre db plate ts host = ⟨db, Response.error 400 msgTimestamp, []⟩ :=
    handler_malformed parse nre (f := ⟨plate, ts, host⟩) hdup he hp
  rw [eq]
  exact ⟨rfl, rfl, rfl⟩

theorem malformed_timestamp_rejected_witness :
    ((submit parseTimestamp false oneSighting "AB12345" "2024-05-01 10:00:03" "cam2").response
        = Response.error 400 msgTimestamp
      ∧ (submit parseTimestamp false oneSighting "AB12345" "2024-05-01 10:00:03" "cam2").fined
        = []
      ∧ (submit parseTimestamp false oneSighting "AB12345" "2024-05-01 10:00:03" "cam2").db
        = oneSighting)
    ∧ (submit parseTimestamp false oneBadSighting "AB12345" "2024-05-01T10:00:03.000+02:00"
        "cam2").db = oneBadSighting :=
  ⟨malformed_timestamp_rejected parseTimestamp false oneSighting "AB12345"
      "2024-05-01 10:00:03" "cam2" ⟨1, "AB12345", "2024-05-01T10:00:00.000+02:00", "cam1"⟩
      (by decide) (by decide) (Or.inr (by decide)),
   (malformed_timestamp_rejected parseTimestamp false oneBadSighting "AB12345"
      "2024-05-01T10:00:03.000+02:00" "cam2" ⟨1, "AB12345", "yesterday", "cam1"⟩
      (by decide) (by decide) (Or.inl (by decide))).2.2⟩

/-- C7 (the claim fails): the timestamp `yesterday` does not parse, yet submitted to the
empty store it is answered with status 200 and the event is stored. -/
theorem unparseable_first_sighting_is_stored :
    parseTimestamp "yesterday" = none
    ∧ submit parseTimestamp false DB.empty "AB12345" "yesterday" "cam1"
      = ⟨oneBadSighting, Response.ok "AB12345" "yesterday" "cam1", []⟩ := by
  constructor <;> decide

/-- C7 (amended): for a submission whose timestamp does not parse, the response is status
400 "invalid timestamp format" with the store unchanged exactly when the store holds a
sighting of the plate and no event with the exact plate and timestamp of the submission;
when the store holds no sighting of the plate, the unparseable event is stored and the
response is status 200. -/
theorem timestamp_checked_only_against_prior_sighting (parse : String → Option Time)
    (nre : Bool) (db : DB) (plate ts host : String) (hp : parse ts = none) :
    (((submit parse nre db plate ts host).response = Response.error 400 msgTimestamp
        ∧ (submit parse nre db plate ts host).db = db)
      ↔ (db.firstByPlateAndTimestamp plate ts = none ∧ db.firstByPlate plate ≠ none))
    ∧ (db.firstByPlate plate = none →
        submit parse nre db plate ts host
          = ⟨db.Create ⟨0, plate, ts, host⟩, Response.ok plate ts host, []⟩) := by
  refine ⟨⟨?_, ?_⟩, ?_⟩
  · rintro ⟨hr, -⟩
    cases hdup : db.firstByPlateAndTimestamp plate ts with
    | some e =>
      have eq : submit parse nre db plate ts host
          = ⟨db.Delete e, Response.error 400 msgDuplicate, []⟩ :=
        handler_duplicate parse nre (f := ⟨plate, ts, host⟩) hdup
      rw [eq] at hr
      exact absurd (Response.error.inj hr).2 (by decide)
    | none =>
      refine ⟨rfl, ?_⟩
      intro he
      have eq : submit parse nre db plate ts host
          = ⟨db.Create ⟨0, plate, ts, host⟩, Response.ok plate ts host, []⟩ :=
        handler_first parse nre (f := ⟨plate, ts, host⟩) he
      rw [eq] at hr
      exact absurd hr (by simp)
  · rintro ⟨hdup, he⟩
    obtain ⟨e, he⟩ := Option.ne_none_iff_exists'.mp he
    have eq : submit parse nre db plate ts host
        = ⟨db, Response.error 400 msgTimestamp, []⟩ :=
      handler_malformed parse nre (f := ⟨plate, ts, host⟩) hdup he (Or.inr hp)
    rw [eq]
    exact ⟨rfl, rfl⟩
  · intro he
    exact handler_first parse nre (f := ⟨plate, ts, host⟩) he

theorem timestamp_checked_only_against_prior_sighting_witness :
    parseTimestamp "tomorrow" = none
    ∧ ((submit parseTimestamp false oneSighting "AB12345" "tomorrow" "cam2").response
        = Response.error 400 msgTimestamp
      ∧ (submit parseTimestamp false oneSighting "AB12345" "tomorrow" "cam2").db
        = oneSighting) :=
  ⟨by decide,
    (timestamp_checked_only_against_prior_sighting parseTimestamp false oneSighting
      "AB12345" "tomorrow" "cam2" (by decide)).1.mpr ⟨by decide, by decide⟩⟩

/-- C8: one request keeps the store free of two events with one plate, and after every
finite sequence of requests served from the empty store (forms that do not parse
included) no two stored events share a plate, hence no two share plate and timestamp. -/
theorem plate_unique_invariant (parse : String → Option Time) (nre : Bool) :
    (∀ (db : DB) (form : Option Form), PlateUnique db.rows →
        PlateUnique (licensePlateHandler parse nre db form).db.rows)
    ∧ (∀ reqs : List (Option Form),
        PlateUnique (serve parse nre DB.empty reqs).rows
        ∧ PairUnique (serve parse nre DB.empty reqs).rows) := by
  refine ⟨fun db form hu => handler_PlateUnique parse nre db form hu, fun reqs => ?_⟩
  have hu : PlateUnique (serve parse nre DB.empty reqs).rows :=
    serve_PlateUnique parse nre reqs DB.empty List.Pairwise.nil
  exact ⟨hu, PairUnique_of_PlateUnique hu⟩

theorem plate_unique_invariant_witness :
    PlateUnique oneSighting.rows
    ∧ PlateUnique (licensePlateHandler parseTimestamp false oneSighting
        (some ⟨"AB12345", "2024-05-01T10:05:01.000+02:00", "cam2"⟩)).db.rows
    ∧ PlateUnique (serve parseTimestamp false DB.empty
        [some ⟨"AB12345", "2024-05-01T10:00:00.000+02:00", "cam1"⟩, none,
         some ⟨"CD67890", "yesterday", "cam1"⟩,
         some ⟨"AB12345", "2024-05-01T10:05:01.000+02:00", "cam2"⟩]).rows :=
  ⟨by decide,
    (plate_unique_invariant parseTimestamp false).1 oneSighting
      (some ⟨"AB12345", "2024-05-01T10:05:01.000+02:00", "cam2"⟩) (by decide),
    ((plate_unique_invariant parseTimestamp false).2 _).1⟩

/-- C9 (the code at the failing input): `main` exits early exactly when
`KAMERAFYR_SERVER_NTFY_URL` is set to a non-empty value; with the variable set to a URL it
logs the error and returns, and with the variable unset or empty it goes on to serve. -/
theorem main_exits_early_iff_url_set :
    (∀ (env : String → Option String) (openErr : Bool),
        main env openErr = Startup.exitedEarly
          ↔ Getenv env "KAMERAFYR_SERVER_NTFY_URL" ≠ "")
    ∧ main (envWithURL "https://ntfy.sh/kamerafyr") false = Startup.exitedEarly
    ∧ main envUnset false = Startup.serving
    ∧ main (envWithURL "") false = Startup.serving := by
  refine ⟨?_, by decide, by decide, by decide⟩
  intro env openErr
  unfold main
  split_ifs with h
  · simp [h]
  · cases openErr <;> simp [h, InitializeDb, Log, Logger.log]

/-- C10: whenever the response is status 400 "license plate is speeding" or "license
plate is not speeding", or the notifier was called, the store after the submission is the
store before it, so the lookup by plate returns the same first sighting as before. -/
theorem speed_branches_keep_store (parse : String → Option Time) (nre : Bool) (db : DB)
    (plate ts host : String)
    (h : (submit parse nre db plate ts host).response = Response.error 400 msgSpeeding
      ∨ (submit parse nre db plate ts host).response = Response.error 400 msgNotSpeeding
      ∨ (submit parse nre db plate ts host).fined ≠ []) :
    (submit parse nre db plate ts host).db = db
    ∧ (submit parse nre db plate ts host).db.firstByPlate plate = db.firstByPlate plate := by
  have key : (submit parse nre db plate ts host).db = db := by
    cases hdup : db.firstByPlateAndTimestamp plate ts with
    | some e =>
      have eq : submit parse nre db plate ts host
          = ⟨db.Delete e, Response.error 400 msgDuplicate, []⟩ :=
        handler_duplicate parse nre (f := ⟨plate, ts, host⟩) hdup
      rw [eq] at h
      rcases h with h | h | h
      · exact absurd (Response.error.inj h).2 (by decide)
      · exact absurd (Response.error.inj h).2 (by decide)
      · exact absurd rfl h
    | none =>
      cases he : db.firstByPlate plate with
      | none =>
        have eq : submit parse nre db plate ts host
            = ⟨db.Create ⟨0, plate, ts, host⟩, Response.ok plate ts host, []⟩ :=
          handler_first parse nre (f := ⟨plate, ts, host⟩) he
        rw [eq] at h
        rcases h with h | h | h
        · exact absurd h (by simp)
        · exact absurd h (by simp)
        · exact absurd rfl h
      | some e =>
        cases h0 : parse e.Timestamp with
        | none =>
          rw [show submit parse nre db plate ts host = _ from
            handler_malformed parse nre (f := ⟨plate, ts, host⟩) hdup he (Or.inl h0)]
        | some t0 =>
          cases h1 : parse ts with
          | none =>
            rw [show submit parse nre db plate ts host = _ from
              handler_malformed parse nre (f := ⟨plate, ts, host⟩) hdup he (Or.inr h1)]
          | some t1 =>
            by_cases hd : 300 < (Time.Sub t1 t0).Seconds
            · have eq : submit parse nre db plate ts host
                  = ⟨(db.Delete e).Create ⟨0, plate, ts, host⟩,
                      Response.ok plate ts host, []⟩ :=
                handler_stale parse nre (f := ⟨plate, ts, host⟩) hdup he h0 h1 hd
              rw [eq] at h
              rcases h with h | h | h
              · exact absurd h (by simp)
              · exact absurd h (by simp)
              · exact absurd rfl h
            · by_cases hk : 30 < kmh (Time.Sub t1 t0).Seconds
              · rw [show submit parse nre db plate ts host = _ from
                  handler_speeding parse nre (f := ⟨plate, ts, host⟩) hdup he h0 h1 hd hk]
              · rw [show submit parse nre db plate ts host = _ from
                  handler_notSpeeding parse nre (f := ⟨plate, ts, host⟩) hdup he h0 h1 hd hk]
  exact ⟨key, by rw [key]⟩

theorem speed_branches_keep_store_witness :
    ((submit parseTimestamp false oneSighting "AB12345" "2024-05-01T10:00:00.100+02:00"
        "cam2").db = oneSighting)
    ∧ ((submit parseTimestamp false oneSighting "AB12345" "2024-05-01T10:00:03.000+02:00"
        "cam2").db = oneSighting) :=
  ⟨(speed_branches_keep_store parseTimestamp false oneSighting "AB12345"
      "2024-05-01T10:00:00.100+02:00" "cam2" (Or.inr (Or.inl (by decide!)))).1,
   (speed_branches_keep_store parseTimestamp false oneSighting "AB12345"
      "2024-05-01T10:00:03.000+02:00" "cam2" (Or.inr (Or.inr (by decide!)))).1⟩

end Kamerafyr
